import Mathlib

/-!
Verification of the record-parsing and statistics-aggregation pipeline of
`analyze_chess.py` (class `ChessAnalyzer`).

Modelling conventions:
* Python strings are modelled as `List Char` (abbreviated `Str`).
* A Python value that may be `None` is an `Option`.
* `int(s)` is fallible; inside `parse_game` any raised exception is caught by
  the surrounding `try/except` which makes the function return `None`, so the
  whole of `parse_game` is modelled as an `Option`-valued function.
* `get_statistics` can raise (a pandas `KeyError` on an empty frame), so it
  returns `Except String Stats`.
-/

/-- Python strings are modelled as lists of characters. -/
abbrev Str := List Char

/-- The ASCII whitespace characters stripped by `str.strip()` and by `int()`
(non-ASCII whitespace is not modelled; the inputs here are ASCII). -/
def isPySpace (c : Char) : Bool :=
  c == ' ' || c == '\t' || c == '\n' || c == '\r' || c == '\x0b' || c == '\x0c'

/-- The character class `[^"]` of the tag patterns. -/
def notQuote (c : Char) : Bool := c != '"'

/-- Drop the literal `p` from the front of `s`; `none` if `s` does not start
with `p`. -/
def dropLit : Str → Str → Option Str
  | [], s => some s
  | _ :: _, [] => none
  | c :: p, d :: s => if c = d then dropLit p s else none

/-- The literal prefix `[Tag "` of the tag pattern `\[Tag "([^"]+)"\]`
(source lines 58-72). -/
def tagPre (tag : Str) : Str := '[' :: tag ++ ' ' :: '"' :: []

/-- One attempt of the tag regex at the start of `s`: the literal `[Tag "`,
then a non-empty greedy run of non-quote characters (`([^"]+)`), then the
literal `"]`.  Greediness admits no backtracking here: a shorter capture
would put a non-quote character where the closing quote must match. -/
def tryTag (tag : Str) (s : Str) : Option Str :=
  match dropLit (tagPre tag) s with
  | none => none
  | some rest =>
    match rest.takeWhile notQuote, rest.dropWhile notQuote with
    | [], _ => none
    | c :: v, '"' :: ']' :: _ => some (c :: v)
    | _ :: _, _ => none

/-- `re.search` of the pattern `\[Tag "([^"]+)"\]` over the block text
(source line 75): try every start position left to right and return the
first capture. -/
def findTag (tag : Str) : Str → Option Str
  | [] => none
  | c :: cs =>
    match tryTag tag (c :: cs) with
    | some v => some v
    | none => findTag tag cs

/-- `str.split(sep)` for a one-character separator (used for
`time_control.split('+')`, line 127, and for the dots of the date format). -/
def splitChar (sep : Char) : Str → List Str
  | [] => [[]]
  | c :: cs =>
    if c = sep then [] :: splitChar sep cs
    else
      match splitChar sep cs with
      | [] => [[c]]
      | p :: ps => (c :: p) :: ps

/-- All-decimal-digit string to a natural number; `none` when empty or when a
non-digit occurs. -/
def digitsToNat (ds : Str) : Option Nat :=
  if ds ≠ [] ∧ ds.all (fun c => c.isDigit) then
    some (ds.foldl (fun a c => a * 10 + (c.toNat - '0'.toNat)) 0)
  else none

/-- Python `int(s)` on an ASCII decimal string: surrounding whitespace is
stripped, an optional sign precedes one or more digits; anything else raises
`ValueError`, modelled as `none`.  (Underscore digit separators and non-ASCII
digits are not modelled; they do not occur in the data formats at issue.) -/
def pyIntL (s : Str) : Option Int :=
  let t := ((s.dropWhile isPySpace).reverse.dropWhile isPySpace).reverse
  match t with
  | '-' :: ds => (digitsToNat ds).map (fun v => -(v : Int))
  | '+' :: ds => (digitsToNat ds).map (fun v => (v : Int))
  | ds => (digitsToNat ds).map (fun v => (v : Int))

/-- Gregorian leap-year rule, as used by `datetime`. -/
def pyIsLeap (y : Nat) : Bool :=
  y % 4 == 0 && (y % 100 != 0 || y % 400 == 0)

/-- Days in month `m` of year `y`, as validated by `datetime`. -/
def pyDaysInMonth (y m : Nat) : Nat :=
  if m = 2 then (if pyIsLeap y then 29 else 28)
  else if m = 4 ∨ m = 6 ∨ m = 9 ∨ m = 11 then 30
  else 31

/-- `datetime.strptime(s, '%Y.%m.%d')` (source line 121): one to four year
digits, a literal dot, one or two month digits, a literal dot, one or two day
digits, nothing left over; the components must form a valid calendar date
(year at least 1).  Any failure raises `ValueError`, modelled as `none`. -/
def pyStrptimeYmd (s : Str) : Option (Nat × Nat × Nat) :=
  match splitChar '.' s with
  | [ys, ms, ds] =>
    match digitsToNat ys, digitsToNat ms, digitsToNat ds with
    | some y, some m, some d =>
      if ys.length ≤ 4 ∧ ms.length ≤ 2 ∧ ds.length ≤ 2 ∧
         1 ≤ y ∧ 1 ≤ m ∧ m ≤ 12 ∧ 1 ≤ d ∧ d ≤ pyDaysInMonth y m
      then some (y, m, d) else none
    | _, _, _ => none
  | _ => none

/-- The thirteen fields extracted by the regex loop of `parse_game`
(source lines 58-79); each is `None` when its tag does not match. -/
structure RawFields where
  event : Option Str
  date : Option Str
  white : Option Str
  black : Option Str
  result : Option Str
  white_elo : Option Str
  black_elo : Option Str
  white_rating_diff : Option Str
  black_rating_diff : Option Str
  time_control : Option Str
  eco : Option Str
  opening : Option Str
  termination : Option Str
deriving DecidableEq

/-- The extraction loop of `parse_game` (source lines 74-79): one independent
`re.search` per tag. -/
def extractFields (text : Str) : RawFields :=
  { event := findTag ("Event".toList) text
    date := findTag ("UTCDate".toList) text
    white := findTag ("White".toList) text
    black := findTag ("Black".toList) text
    result := findTag ("Result".toList) text
    white_elo := findTag ("WhiteElo".toList) text
    black_elo := findTag ("BlackElo".toList) text
    white_rating_diff := findTag ("WhiteRatingDiff".toList) text
    black_rating_diff := findTag ("BlackRatingDiff".toList) text
    time_control := findTag ("TimeControl".toList) text
    eco := findTag ("ECO".toList) text
    opening := findTag ("Opening".toList) text
    termination := findTag ("Termination".toList) text }

/-- A parsed game record: the raw extracted fields plus the derived fields
added by `parse_game` (source lines 82-143). -/
structure Game where
  event : Option Str
  date : Option Str
  white : Option Str
  black : Option Str
  result : Option Str
  white_elo : Option Str
  black_elo : Option Str
  white_rating_diff : Option Str
  black_rating_diff : Option Str
  time_control : Option Str
  eco : Option Str
  opening : Option Str
  termination : Option Str
  my_color : Str
  my_elo : Option Int
  opp_elo : Option Int
  rating_diff : Option Int
  datetime : Option (Nat × Nat × Nat)
  time_category : Str
  outcome : Str
deriving DecidableEq

/-- Outcome when the subject plays white (source lines 88-93). -/
def whiteOutcome (result : Option Str) : Str :=
  if result = some ("1-0".toList) then "win".toList
  else if result = some ("0-1".toList) then "loss".toList
  else "draw".toList

/-- Outcome when the subject plays black (source lines 101-106). -/
def blackOutcome (result : Option Str) : Str :=
  if result = some ("0-1".toList) then "win".toList
  else if result = some ("1-0".toList) then "loss".toList
  else "draw".toList

/-- One numeric-field conversion of source lines 110-116
(`if game[k]: game[k] = int(game[k])`).  An absent field is left `None`; a
present field goes through `int`, whose `ValueError` propagates to the
per-block handler (outer `none`).  The captured values are never empty (the
tag pattern requires at least one character), so Python's truthiness test on
the string amounts to a `None` test; the empty case is kept for totality and
left unconverted like Python would. -/
def convElo : Option Str → Option (Option Int)
  | none => some none
  | some s => if s = [] then some none else (pyIntL s).map some

/-- Time-control classification, source lines 126-141.  The outer `none`
models the `ValueError` of `int(tc_parts[0])` escaping to the per-block
handler; every other path yields a category.  The `else` arm for a split of
length zero is kept from the source although `str.split` never produces an
empty list. -/
def timeCategorize (tc : Option Str) : Option Str :=
  match tc with
  | some s =>
    if s ≠ [] ∧ s ≠ "-".toList then
      let parts := splitChar '+' s
      if parts.length ≥ 1 then
        match pyIntL (parts.headD []) with
        | some base_time =>
          some (if base_time < 180 then "bullet".toList
                else if base_time < 480 then "blitz".toList
                else if base_time < 1500 then "rapid".toList
                else "classical".toList)
        | none => none
      else some ("unknown".toList)
    else some ("unknown".toList)
  | none => some ("unknown".toList)

/-- The tail of `parse_game` after the colour split (source lines 110-143):
numeric conversions, date parsing (whose failure is caught locally,
lines 120-123), time-control classification, and assembly of the record.
A `none` from any conversion models the exception reaching the per-block
handler (lines 145-147), which discards the record. -/
def finishGame (f : RawFields) (my_color : Str)
    (my_elo_s opp_elo_s rating_diff_s : Option Str) (outcome : Str) :
    Option Game :=
  match convElo my_elo_s with
  | none => none
  | some my_elo =>
    match convElo opp_elo_s with
    | none => none
    | some opp_elo =>
      match convElo rating_diff_s with
      | none => none
      | some rating_diff =>
        let datetime := match f.date with
          | some d => pyStrptimeYmd d
          | none => none
        match timeCategorize f.time_control with
        | none => none
        | some time_category =>
          some { event := f.event, date := f.date, white := f.white,
                 black := f.black, result := f.result,
                 white_elo := f.white_elo, black_elo := f.black_elo,
                 white_rating_diff := f.white_rating_diff,
                 black_rating_diff := f.black_rating_diff,
                 time_control := f.time_control, eco := f.eco,
                 opening := f.opening, termination := f.termination,
                 my_color := my_color, my_elo := my_elo, opp_elo := opp_elo,
                 rating_diff := rating_diff, datetime := datetime,
                 time_category := time_category, outcome := outcome }

/-- The colour split of `parse_game` (source lines 82-108): the subject name
is compared against the white field first, then the black field; when neither
matches the record is dropped (`return None`). -/
def parseFromFields (username : Str) (f : RawFields) : Option Game :=
  if f.white = some username then
    finishGame f ("white".toList) f.white_elo f.black_elo f.white_rating_diff
      (whiteOutcome f.result)
  else if f.black = some username then
    finishGame f ("black".toList) f.black_elo f.white_elo f.black_rating_diff
      (blackOutcome f.result)
  else none

/-- `ChessAnalyzer.parse_game` (source lines 52-147): field extraction
followed by colour split, conversions and classification; `none` both for the
silent discard of an unattributable record and for a caught exception. -/
def parseGame (username text : Str) : Option Game :=
  parseFromFields username (extractFields text)

/-- The literal separator of `re.split(r'\n\n\[Event', content)`
(source line 34). -/
def sepChars : Str := "\n\n[Event".toList

/-- `re.split` on the literal separator, written with an explicit fuel that
is always sufficient (each step consumes at least one character), so that the
function is structurally recursive and evaluates by kernel reduction. -/
def splitSepFuel : Nat → Str → List Str
  | _, [] => [[]]
  | 0, s => [s]
  | fuel + 1, c :: cs =>
    match dropLit sepChars (c :: cs) with
    | some rest => [] :: splitSepFuel fuel rest
    | none =>
      match splitSepFuel fuel cs with
      | [] => [[c]]
      | p :: ps => (c :: p) :: ps

/-- `re.split(r'\n\n\[Event', content)`: the pattern is a literal with no
self-overlap, so splitting on leftmost non-overlapping occurrences of the
literal is exactly the regex split. -/
def splitSep (s : Str) : List Str := splitSepFuel s.length s

/-- `ChessAnalyzer.parse_pgn` on in-memory text (source lines 26-50): split
on the boundary marker, re-prepend the consumed `[Event` token to every block
after the first, drop blank blocks, parse each block and keep the successes
in order. -/
def parsePgn (username content : Str) : List Game :=
  let texts :=
    match splitSep content with
    | [] => []
    | p :: rest => p :: rest.map (fun t => "[Event".toList ++ t)
  (texts.filter (fun t => !(t.all isPySpace))).filterMap (parseGame username)

/-- `len(df[df['outcome'] == o])` over the record list (source lines
157-159). -/
def countOutcome (gs : List Game) (o : Str) : Nat :=
  (gs.filter (fun g => decide (g.outcome = o))).length

/-- The summary entries of `get_statistics` that the claims refer to
(source lines 153-178).  The remaining entries (highest/lowest/average
rating and the `value_counts` breakdowns) are not modelled: no claim
mentions them and their empty-column semantics is floating-point `NaN`. -/
structure Stats where
  total_games : Nat
  wins : Nat
  losses : Nat
  draws : Nat
  win_rate : Rat
  white_games : Nat
  white_wins : Nat
  white_win_rate : Rat
  black_games : Nat
  black_wins : Nat
  black_win_rate : Rat
  current_rating : Option Int
deriving DecidableEq

/-- The summary-building part of `get_statistics` (source lines 153-189),
reached only when the frame is non-empty: counts, exact-rational rate
percentages with the source's own zero-denominator guards, and the
`iloc[-1]` current rating with the source's emptiness guard. -/
def mkStats (gs : List Game) : Stats :=
    let total_games := gs.length
    let wins := countOutcome gs ("win".toList)
    let losses := countOutcome gs ("loss".toList)
    let draws := countOutcome gs ("draw".toList)
    let win_rate : Rat := ((wins : Rat) / (total_games : Rat)) * 100
    let whiteGs := gs.filter (fun g => decide (g.my_color = "white".toList))
    let blackGs := gs.filter (fun g => decide (g.my_color = "black".toList))
    let white_games := whiteGs.length
    let white_wins := (whiteGs.filter (fun g => decide (g.outcome = "win".toList))).length
    let white_win_rate : Rat :=
      if white_games > 0 then ((white_wins : Rat) / (white_games : Rat)) * 100 else 0
    let black_games := blackGs.length
    let black_wins := (blackGs.filter (fun g => decide (g.outcome = "win".toList))).length
    let black_win_rate : Rat :=
      if black_games > 0 then ((black_wins : Rat) / (black_games : Rat)) * 100 else 0
    let current_rating : Option Int :=
      match gs.getLast? with
      | some g => g.my_elo
      | none => some 0
    { total_games := total_games, wins := wins, losses := losses,
                draws := draws, win_rate := win_rate,
                white_games := white_games, white_wins := white_wins,
                white_win_rate := white_win_rate, black_games := black_games,
                black_wins := black_wins, black_win_rate := black_win_rate,
                current_rating := current_rating }

/-- `ChessAnalyzer.get_statistics` (source lines 149-189).  `pd.DataFrame`
of an empty list yields a frame with no columns, so the first column access
`df[df['outcome'] == 'win']` (line 157) raises `KeyError`; this is the
`Except.error` branch (had that access not raised, the unguarded `win_rate`
division of line 160 would raise `ZeroDivisionError` on the same input).
On a non-empty list every column exists and no division is by zero. -/
def getStatistics (gs : List Game) : Except String Stats :=
  if gs.isEmpty then Except.error "KeyError: outcome"
  else Except.ok (mkStats gs)

/-- The bucket label assigned by
`pd.cut(d, bins=[-inf,-200,-100,-50,0,50,100,200,inf], labels=...)`
(source lines 466-469).  `pd.cut` defaults to `right=True`, so each interval
is open on the left and closed on the right: `(-inf,-200], (-200,-100], ...,
(200, inf)`. -/
def ratingBin (d : Int) : Str :=
  if d ≤ -200 then "<-200".toList
  else if d ≤ -100 then "-200 to -100".toList
  else if d ≤ -50 then "-100 to -50".toList
  else if d ≤ 0 then "-50 to 0".toList
  else if d ≤ 50 then "0 to 50".toList
  else if d ≤ 100 then "50 to 100".toList
  else if d ≤ 200 then "100 to 200".toList
  else ">200".toList

/-- The per-record bucket of `plot_performance_vs_rating_diff` (source lines
463-469): `rating_difference = my_elo - opp_elo` is `NaN` when either rating
is null, and `pd.cut` maps `NaN` to no labelled bucket, so such a record
matches none of the eight labels in the aggregation loop. -/
def recordRatingBin (g : Game) : Option Str :=
  match g.my_elo, g.opp_elo with
  | some a, some b => some (ratingBin (a - b))
  | _, _ => none

/-- The transformation named by the colour-result symmetry claim: swapping
the result code between the white-win and black-win codes. -/
def swapResult : Option Str → Option Str
  | none => none
  | some r =>
    if r = "1-0".toList then some ("0-1".toList)
    else if r = "0-1".toList then some ("1-0".toList)
    else some r

/-- A rendered tag line `[Name "value"]`. -/
def tagLine (n v : Str) : Str :=
  '[' :: n ++ ' ' :: '"' :: v ++ '"' :: ']' :: []

/-- A block rendered from a list of (tag, value) pairs, one tag line per
pair. -/
def renderTags : List (Str × Str) → Str
  | [] => []
  | (n, v) :: rest => tagLine n v ++ '\n' :: renderTags rest

/-- A well-formed tag name: non-empty, and free of the quote, open-bracket
and space characters (all thirteen tag names of the source are such). -/
def validTagName (n : Str) : Prop :=
  n ≠ [] ∧ ∀ c ∈ n, c ≠ '"' ∧ c ≠ '[' ∧ c ≠ ' '

/-- A well-formed tag value: free of the quote and open-bracket characters
(a captured value can never contain a quote; bracket-free keeps a value from
opening a spurious tag). -/
def validTagValue (v : Str) : Prop :=
  ∀ c ∈ v, c ≠ '"' ∧ c ≠ '['

/-- All pairs of a rendered block are well-formed. -/
def ValidPairs (ps : List (Str × Str)) : Prop :=
  ∀ q ∈ ps, validTagName q.1 ∧ validTagValue q.2

/-- First value bound to tag `t` in the pair list, skipping empty values:
what the tag regex can see in a rendered block. -/
def lookupNE (t : Str) : List (Str × Str) → Option Str
  | [] => none
  | (n, v) :: rest => if n = t ∧ v ≠ [] then some v else lookupNE t rest

instance : DecidablePred validTagName := fun n => by
  unfold validTagName; infer_instance

instance : DecidablePred validTagValue := fun v => by
  unfold validTagValue; infer_instance

instance : DecidablePred ValidPairs := fun ps => by
  unfold ValidPairs; infer_instance

/-- The subject identity the source hardcodes (`self.username`, line 24). -/
def subj : Str := "Cassiny".toList

/-- Witness input for the outcome-partition claim: one block in which the
subject wins as white. -/
def t5 : Str :=
  ("[White \"Cassiny\"]\n[Black \"Opp\"]\n[Result \"1-0\"]\n[WhiteElo \"1500\"]\n[BlackElo \"1450\"]").toList

/-- Witness record for the current-rating claim: a white win dated May 2025,
appearing first in input order. -/
def gA9 : Game :=
  { event := none, date := none, white := some ("Cassiny".toList),
    black := some ("Opp".toList), result := some ("1-0".toList),
    white_elo := none, black_elo := none, white_rating_diff := none,
    black_rating_diff := none, time_control := none, eco := none,
    opening := none, termination := none, my_color := "white".toList,
    my_elo := some 1500, opp_elo := none, rating_diff := none,
    datetime := some (2025, 5, 1), time_category := "unknown".toList,
    outcome := "win".toList }

/-- Witness record for the current-rating claim: a black loss dated January
2024 — chronologically earlier than `gA9` yet last in input order. -/
def gB9 : Game :=
  { event := none, date := none, white := some ("Opp".toList),
    black := some ("Cassiny".toList), result := some ("1-0".toList),
    white_elo := none, black_elo := none, white_rating_diff := none,
    black_rating_diff := none, time_control := none, eco := none,
    opening := none, termination := none, my_color := "black".toList,
    my_elo := some 1400, opp_elo := none, rating_diff := none,
    datetime := some (2024, 1, 1), time_category := "unknown".toList,
    outcome := "loss".toList }

/-- Counterexample block for the per-field rating-recovery claim: the subject
is white and the white rating is non-numeric. -/
def cex2 : Str :=
  ("[White \"Cassiny\"]\n[Black \"Opp\"]\n[Result \"1-0\"]\n[WhiteElo \"abc\"]").toList

/-- Witness block with a non-numeric white rating, subject playing black. -/
def w2 : Str :=
  ("[White \"Zed\"]\n[Black \"Cassiny\"]\n[Result \"0-1\"]\n[WhiteElo \"9x9\"]").toList

/-- Counterexample block for the time-control-recovery claim: a present
time-control string whose leading component is not an integer. -/
def cex3 : Str :=
  ("[White \"Cassiny\"]\n[Black \"Opp\"]\n[Result \"1-0\"]\n[TimeControl \"abc+3\"]").toList

/-- Witness block whose time-control leading component (before the plus) is
empty, hence non-numeric. -/
def w3 : Str :=
  ("[White \"Cassiny\"]\n[Black \"Opp\"]\n[TimeControl \"+90\"]").toList

/-- Counterexample block for the retention-iff claim: the subject matches the
white field, yet the black rating is non-numeric. -/
def cex8 : Str :=
  ("[White \"Cassiny\"]\n[Black \"Opp\"]\n[Result \"0-1\"]\n[BlackElo \"12x\"]").toList

/-- Witness block in which the subject matches neither name field. -/
def w8 : Str := ("[White \"A\"]\n[Black \"B\"]\n[Result \"1-0\"]").toList

/-- Witness block in which the subject matches white and every conversion
succeeds trivially (all numeric fields absent). -/
def t8 : Str := ("[White \"Cassiny\"]\n[Result \"1/2-1/2\"]").toList

/-- Witness block for the time-category boundaries: base time exactly 179. -/
def w6 : Str := ("[White \"Cassiny\"]\n[TimeControl \"179+2\"]").toList

/-- The record `parse_game` produces for `w6`. -/
def g6 : Game :=
  { event := none, date := none, white := some ("Cassiny".toList), black := none,
    result := none, white_elo := none, black_elo := none,
    white_rating_diff := none, black_rating_diff := none,
    time_control := some ("179+2".toList), eco := none, opening := none,
    termination := none, my_color := "white".toList, my_elo := none,
    opp_elo := none, rating_diff := none, datetime := none,
    time_category := "bullet".toList, outcome := "draw".toList }

/-- Counterexample record for the bucketing claim: equal ratings, so a
rating difference of exactly 0. -/
def g7 : Game :=
  { event := none, date := none, white := some ("Cassiny".toList),
    black := some ("Opp".toList), result := none, white_elo := none,
    black_elo := none, white_rating_diff := none, black_rating_diff := none,
    time_control := none, eco := none, opening := none, termination := none,
    my_color := "white".toList, my_elo := some 1500, opp_elo := some 1500,
    rating_diff := none, datetime := none, time_category := "unknown".toList,
    outcome := "draw".toList }

/-- Witness record with a null subject rating, excluded from bucketing. -/
def gN7 : Game :=
  { event := none, date := none, white := some ("Cassiny".toList),
    black := some ("Opp".toList), result := none, white_elo := none,
    black_elo := none, white_rating_diff := none, black_rating_diff := none,
    time_control := none, eco := none, opening := none, termination := none,
    my_color := "white".toList, my_elo := none, opp_elo := some 1500,
    rating_diff := none, datetime := none, time_category := "unknown".toList,
    outcome := "draw".toList }

/-- Counterexample block for the colour-result symmetry: the subject appears
as both white and black, the degenerate case the spec calls unguarded. -/
def cex4a : Str :=
  ("[White \"Cassiny\"]\n[Black \"Cassiny\"]\n[Result \"1-0\"]").toList

/-- `cex4a` with the two name fields swapped (identical, as both name the
subject) and the result code swapped. -/
def cex4b : Str :=
  ("[White \"Cassiny\"]\n[Black \"Cassiny\"]\n[Result \"0-1\"]").toList

/-- Witness block for colour-result symmetry: subject wins as white. -/
def wA4 : Str :=
  ("[White \"Cassiny\"]\n[Black \"Opp\"]\n[Result \"1-0\"]").toList

/-- `wA4` with names and result swapped: subject wins as black. -/
def wB4 : Str :=
  ("[White \"Opp\"]\n[Black \"Cassiny\"]\n[Result \"0-1\"]").toList

/-- The record `parse_game` produces for `wA4`. -/
def gA4 : Game :=
  { event := none, date := none, white := some ("Cassiny".toList),
    black := some ("Opp".toList), result := some ("1-0".toList),
    white_elo := none, black_elo := none, white_rating_diff := none,
    black_rating_diff := none, time_control := none, eco := none,
    opening := none, termination := none, my_color := "white".toList,
    my_elo := none, opp_elo := none, rating_diff := none, datetime := none,
    time_category := "unknown".toList, outcome := "win".toList }

/-- The record `parse_game` produces for `wB4`. -/
def gB4 : Game :=
  { event := none, date := none, white := some ("Opp".toList),
    black := some ("Cassiny".toList), result := some ("0-1".toList),
    white_elo := none, black_elo := none, white_rating_diff := none,
    black_rating_diff := none, time_control := none, eco := none,
    opening := none, termination := none, my_color := "black".toList,
    my_elo := none, opp_elo := none, rating_diff := none, datetime := none,
    time_category := "unknown".toList, outcome := "win".toList }

/-- Witness pair list for the empty-tag claim. -/
def post10 : List (Str × Str) :=
  [("White".toList, "Cassiny".toList), ("Result".toList, "1-0".toList)]

theorem tryTag_ne_nil {t s v} (h : tryTag t s = some v) : v ≠ [] := by
  unfold tryTag at h
  cases hd : dropLit (tagPre t) s with
  | none => simp [hd] at h
  | some rest =>
    simp only [hd] at h
    split at h
    · exact absurd h (by simp)
    · simp only [Option.some.injEq] at h
      subst h
      simp
    · exact absurd h (by simp)

theorem findTag_ne_nil {t s v} (h : findTag t s = some v) : v ≠ [] := by
  induction s with
  | nil => simp [findTag] at h
  | cons c cs ih =>
    rw [findTag] at h
    cases htr : tryTag t (c :: cs) with
    | some w =>
      rw [htr] at h
      simp only [Option.some.injEq] at h
      subst h
      exact tryTag_ne_nil htr
    | none =>
      rw [htr] at h
      exact ih h

theorem splitChar_ne_nil (sep : Char) (s : Str) : splitChar sep s ≠ [] := by
  induction s with
  | nil => simp [splitChar]
  | cons c cs ih =>
    rw [splitChar]
    split
    · simp
    · split <;> simp

theorem finishGame_inv {f : RawFields} {col : Str} {mes oes rds : Option Str}
    {oc : Str} {g : Game} (h : finishGame f col mes oes rds oc = some g) :
    g.my_color = col ∧ g.outcome = oc ∧ g.result = f.result ∧
    timeCategorize f.time_control = some g.time_category := by
  unfold finishGame at h
  cases hm : convElo mes with
  | none => simp [hm] at h
  | some my_elo =>
    simp only [hm] at h
    cases ho : convElo oes with
    | none => simp [ho] at h
    | some opp_elo =>
      simp only [ho] at h
      cases hr : convElo rds with
      | none => simp [hr] at h
      | some rating_diff =>
        simp only [hr] at h
        cases htc : timeCategorize f.time_control with
        | none => simp [htc] at h
        | some tcat =>
          simp only [htc, Option.some.injEq] at h
          subst h
          exact ⟨rfl, rfl, rfl, rfl⟩

theorem finishGame_none_mes {f : RawFields} {col : Str} {mes oes rds : Option Str}
    {oc : Str} (h : convElo mes = none) :
    finishGame f col mes oes rds oc = none := by
  unfold finishGame
  rw [h]

theorem finishGame_none_oes {f : RawFields} {col : Str} {mes oes rds : Option Str}
    {oc : Str} (h : convElo oes = none) :
    finishGame f col mes oes rds oc = none := by
  unfold finishGame
  cases hm : convElo mes <;> simp [h]

theorem finishGame_none_rds {f : RawFields} {col : Str} {mes oes rds : Option Str}
    {oc : Str} (h : convElo rds = none) :
    finishGame f col mes oes rds oc = none := by
  unfold finishGame
  cases hm : convElo mes <;> cases ho : convElo oes <;> simp [h]

theorem finishGame_isSome {f : RawFields} {col : Str} {mes oes rds : Option Str}
    {oc : Str} (h1 : convElo mes ≠ none) (h2 : convElo oes ≠ none)
    (h3 : convElo rds ≠ none) (h4 : timeCategorize f.time_control ≠ none) :
    finishGame f col mes oes rds oc ≠ none := by
  unfold finishGame
  cases hm : convElo mes with
  | none => exact absurd hm h1
  | some a =>
    cases ho : convElo oes with
    | none => exact absurd ho h2
    | some b =>
      cases hr : convElo rds with
      | none => exact absurd hr h3
      | some c =>
        cases htc : timeCategorize f.time_control with
        | none => exact absurd htc h4
        | some tc => simp

theorem parseFromFields_inv {u : Str} {f : RawFields} {g : Game}
    (h : parseFromFields u f = some g) :
    (f.white = some u ∧ g.my_color = "white".toList ∧
      g.outcome = whiteOutcome f.result ∧ g.result = f.result ∧
      timeCategorize f.time_control = some g.time_category) ∨
    (f.white ≠ some u ∧ f.black = some u ∧ g.my_color = "black".toList ∧
      g.outcome = blackOutcome f.result ∧ g.result = f.result ∧
      timeCategorize f.time_control = some g.time_category) := by
  unfold parseFromFields at h
  split_ifs at h with hw hb
  · obtain ⟨h1, h2, h3, h4⟩ := finishGame_inv h
    exact Or.inl ⟨hw, h1, h2, h3, h4⟩
  · obtain ⟨h1, h2, h3, h4⟩ := finishGame_inv h
    exact Or.inr ⟨hw, hb, h1, h2, h3, h4⟩

theorem parseGame_timeCat {u text : Str} {g : Game}
    (h : parseGame u text = some g) :
    timeCategorize (extractFields text).time_control = some g.time_category := by
  unfold parseGame at h
  rcases parseFromFields_inv h with ⟨_, _, _, _, h5⟩ | ⟨_, _, _, _, _, h5⟩ <;>
    exact h5

theorem parseGame_outcome_cases {u text : Str} {g : Game}
    (h : parseGame u text = some g) :
    g.outcome = whiteOutcome (extractFields text).result ∨
    g.outcome = blackOutcome (extractFields text).result := by
  unfold parseGame at h
  rcases parseFromFields_inv h with ⟨_, _, h3, _, _⟩ | ⟨_, _, _, h4, _, _⟩
  · exact Or.inl h3
  · exact Or.inr h4

theorem whiteOutcome_tri (r : Option Str) :
    whiteOutcome r = "win".toList ∨ whiteOutcome r = "loss".toList ∨
    whiteOutcome r = "draw".toList := by
  unfold whiteOutcome
  split_ifs <;> simp

theorem blackOutcome_tri (r : Option Str) :
    blackOutcome r = "win".toList ∨ blackOutcome r = "loss".toList ∨
    blackOutcome r = "draw".toList := by
  unfold blackOutcome
  split_ifs <;> simp

theorem parseGame_outcome_tri {u text : Str} {g : Game}
    (h : parseGame u text = some g) :
    g.outcome = "win".toList ∨ g.outcome = "loss".toList ∨
    g.outcome = "draw".toList := by
  rcases parseGame_outcome_cases h with h3 | h3 <;> rw [h3]
  · exact whiteOutcome_tri _
  · exact blackOutcome_tri _

/-- Claim C1.  The spec requires the empty-input pipeline to return a summary
with `total_games = 0` and all rates 0, raising nothing.  The code instead
raises: on empty input `parse_pgn` yields no games, `pd.DataFrame([])` has no
columns, and `get_statistics` raises `KeyError` at its first column access
(and its unguarded `win_rate` division would raise `ZeroDivisionError` right
after).  This theorem evaluates the pipeline at the failing input. -/
theorem C1_empty_input_raises :
    parsePgn subj ("".toList) = [] ∧
    getStatistics (parsePgn subj ("".toList)) = Except.error "KeyError: outcome" := by
  constructor <;> rfl


theorem countOutcome_cons (g : Game) (gs : List Game) (o : Str) :
    countOutcome (g :: gs) o = (if g.outcome = o then 1 else 0) + countOutcome gs o := by
  unfold countOutcome
  by_cases hg : g.outcome = o <;> (simp [List.filter_cons, hg]; try omega)

theorem length_eq_counts (gs : List Game)
    (h : ∀ g ∈ gs, g.outcome = "win".toList ∨ g.outcome = "loss".toList ∨
      g.outcome = "draw".toList) :
    gs.length = countOutcome gs ("win".toList) + countOutcome gs ("loss".toList) +
      countOutcome gs ("draw".toList) := by
  induction gs with
  | nil => rfl
  | cons g gs ih =>
    have ih2 := ih (fun x hx => h x (List.mem_cons_of_mem _ hx))
    rw [List.length_cons, countOutcome_cons, countOutcome_cons, countOutcome_cons]
    rcases h g (List.mem_cons_self _ _) with hg | hg | hg
    · have n1 : ¬ (g.outcome = "loss".toList) := by rw [hg]; decide
      have n2 : ¬ (g.outcome = "draw".toList) := by rw [hg]; decide
      rw [if_pos hg, if_neg n1, if_neg n2]
      omega
    · have n1 : ¬ (g.outcome = "win".toList) := by rw [hg]; decide
      have n2 : ¬ (g.outcome = "draw".toList) := by rw [hg]; decide
      rw [if_pos hg, if_neg n1, if_neg n2]
      omega
    · have n1 : ¬ (g.outcome = "win".toList) := by rw [hg]; decide
      have n2 : ¬ (g.outcome = "loss".toList) := by rw [hg]; decide
      rw [if_pos hg, if_neg n1, if_neg n2]
      omega

theorem parsePgn_mem {u text : Str} {g : Game} (hg : g ∈ parsePgn u text) :
    ∃ t, parseGame u t = some g := by
  simp only [parsePgn, List.mem_filterMap] at hg
  obtain ⟨t, _, hp⟩ := hg
  exact ⟨t, hp⟩

/-- Claim C5.  Every record produced by parsing carries one of the three
outcome labels, so the aggregated tallies partition the record count:
whenever `get_statistics` returns a summary for a parsed sequence,
`total_games = wins + losses + draws` exactly. -/
theorem C5_outcome_partition (u text : Str) (st : Stats)
    (h : getStatistics (parsePgn u text) = Except.ok st) :
    st.total_games = st.wins + st.losses + st.draws := by
  unfold getStatistics at h
  by_cases hE : (parsePgn u text).isEmpty
  · rw [if_pos hE] at h
    exact absurd h (by simp)
  · rw [if_neg hE] at h
    simp only [Except.ok.injEq] at h
    subst h
    exact length_eq_counts _ (fun g hg => by
      obtain ⟨t, hp⟩ := parsePgn_mem hg
      exact parseGame_outcome_tri hp)

/-- Witness for C5 at a concrete one-game input. -/
theorem C5_outcome_partition_witness :
    getStatistics (parsePgn subj t5) = Except.ok (mkStats (parsePgn subj t5)) ∧
    (mkStats (parsePgn subj t5)).total_games = 1 ∧
    (mkStats (parsePgn subj t5)).total_games =
      (mkStats (parsePgn subj t5)).wins + (mkStats (parsePgn subj t5)).losses +
        (mkStats (parsePgn subj t5)).draws :=
  ⟨by unfold getStatistics; rw [if_neg (by decide)], rfl,
    C5_outcome_partition subj t5 (mkStats (parsePgn subj t5))
      (by unfold getStatistics; rw [if_neg (by decide)])⟩

/-- Claim C9.  The `current_rating` entry is the subject rating of the last
record in original input order (`df['my_elo'].iloc[-1]`), whatever the dates
of the records are — no re-sorting happens before the access. -/
theorem C9_current_rating_is_last (gs : List Game) (g : Game) (st : Stats)
    (hlast : gs.getLast? = some g)
    (h : getStatistics gs = Except.ok st) :
    st.current_rating = g.my_elo := by
  unfold getStatistics at h
  by_cases hE : gs.isEmpty
  · rw [if_pos hE] at h
    exact absurd h (by simp)
  · rw [if_neg hE] at h
    simp only [Except.ok.injEq] at h
    subst h
    simp only [mkStats, hlast]

/-- Witness for C9: two concrete records whose input order is the reverse of
their chronological order; the reported rating is the one of the record that
is last in input order (and chronologically earlier). -/
theorem C9_current_rating_is_last_witness :
    [gA9, gB9].getLast? = some gB9 ∧ gA9.datetime = some (2025, 5, 1) ∧
    gB9.datetime = some (2024, 1, 1) ∧
    (mkStats [gA9, gB9]).current_rating = some 1400 ∧
    (mkStats [gA9, gB9]).current_rating = gB9.my_elo :=
  ⟨rfl, rfl, rfl, rfl,
    C9_current_rating_is_last [gA9, gB9] gB9 (mkStats [gA9, gB9]) rfl
      (by unfold getStatistics; rw [if_neg (by decide)])⟩


theorem finishGame_none_tc {f : RawFields} {col : Str} {mes oes rds : Option Str}
    {oc : Str} (h : timeCategorize f.time_control = none) :
    finishGame f col mes oes rds oc = none := by
  unfold finishGame
  cases hm : convElo mes <;> cases ho : convElo oes <;> cases hr : convElo rds <;>
    simp [h]

theorem convElo_none_of_bad {s : Str} (hs : s ≠ []) (hbad : pyIntL s = none) :
    convElo (some s) = none := by
  simp [convElo, hs, hbad]

/-- Claim C2, amended.  A non-numeric rating-like field does not become null
with the record otherwise kept: the `int()` failure escapes to the per-block
handler and the whole record is discarded (`parse_game` returns `None`, with
no exception propagating further).  The four converted fields are the white
rating, the black rating, and the rating delta of whichever side the subject
is (the opposite side's delta is never converted). -/
theorem C2_bad_rating_discards_record :
    (∀ u text s : Str, (extractFields text).white_elo = some s →
      pyIntL s = none → parseGame u text = none) ∧
    (∀ u text s : Str, (extractFields text).black_elo = some s →
      pyIntL s = none → parseGame u text = none) ∧
    (∀ u text s : Str, (extractFields text).white = some u →
      (extractFields text).white_rating_diff = some s →
      pyIntL s = none → parseGame u text = none) ∧
    (∀ u text s : Str, (extractFields text).white ≠ some u →
      (extractFields text).black = some u →
      (extractFields text).black_rating_diff = some s →
      pyIntL s = none → parseGame u text = none) := by
  refine ⟨?_, ?_, ?_, ?_⟩
  · intro u text s h hbad
    have hs : s ≠ [] := findTag_ne_nil (show findTag ("WhiteElo".toList) text = some s from h)
    have hc : convElo (extractFields text).white_elo = none := by
      rw [h]; exact convElo_none_of_bad hs hbad
    unfold parseGame parseFromFields
    split_ifs
    · exact finishGame_none_mes hc
    · exact finishGame_none_oes hc
    · rfl
  · intro u text s h hbad
    have hs : s ≠ [] := findTag_ne_nil (show findTag ("BlackElo".toList) text = some s from h)
    have hc : convElo (extractFields text).black_elo = none := by
      rw [h]; exact convElo_none_of_bad hs hbad
    unfold parseGame parseFromFields
    split_ifs
    · exact finishGame_none_oes hc
    · exact finishGame_none_mes hc
    · rfl
  · intro u text s hw h hbad
    have hs : s ≠ [] :=
      findTag_ne_nil (show findTag ("WhiteRatingDiff".toList) text = some s from h)
    have hc : convElo (extractFields text).white_rating_diff = none := by
      rw [h]; exact convElo_none_of_bad hs hbad
    unfold parseGame parseFromFields
    rw [if_pos hw]
    exact finishGame_none_rds hc
  · intro u text s hw hb h hbad
    have hs : s ≠ [] :=
      findTag_ne_nil (show findTag ("BlackRatingDiff".toList) text = some s from h)
    have hc : convElo (extractFields text).black_rating_diff = none := by
      rw [h]; exact convElo_none_of_bad hs hbad
    unfold parseGame parseFromFields
    rw [if_neg hw, if_pos hb]
    exact finishGame_none_rds hc

/-- Counterexample to claim C2 as stated: this block has the subject as
white and a non-numeric white rating, and no record at all is returned —
the field is not nulled with the record kept. -/
theorem C2_counterexample :
    (extractFields cex2).white = some subj ∧
    (extractFields cex2).white_elo = some ("abc".toList) ∧
    pyIntL ("abc".toList) = none ∧
    parseGame subj cex2 = none := by decide

/-- Witness for the amended C2 at a concrete block (subject plays black, the
white rating is the opponent rating and is non-numeric). -/
theorem C2_bad_rating_discards_record_witness :
    parseGame subj w2 = none :=
  C2_bad_rating_discards_record.1 subj w2 ("9x9".toList) (by decide) (by decide)

/-- Claim C3, amended.  A present, non-`"-"` time-control string whose
leading component is not an integer does not yield `time_category =
'unknown'`: the `int()` failure escapes to the per-block handler and the
whole record is discarded (`parse_game` returns `None`, with no exception
propagating further). -/
theorem C3_bad_time_control_discards_record (u text s : Str)
    (htc : (extractFields text).time_control = some s)
    (hdash : s ≠ "-".toList)
    (hbad : pyIntL ((splitChar '+' s).headD []) = none) :
    parseGame u text = none := by
  have hs : s ≠ [] :=
    findTag_ne_nil (show findTag ("TimeControl".toList) text = some s from htc)
  have hcat2 : timeCategorize (some s) = none := by
    simp only [timeCategorize]
    rw [if_pos ⟨hs, hdash⟩,
      if_pos (show (splitChar '+' s).length ≥ 1 from
        List.length_pos.mpr (splitChar_ne_nil '+' s))]
    simp only [hbad]
  have hcat : timeCategorize ((extractFields text).time_control) = none := by
    rw [htc]; exact hcat2
  unfold parseGame parseFromFields
  split_ifs
  · exact finishGame_none_tc hcat
  · exact finishGame_none_tc hcat
  · rfl

/-- Counterexample to claim C3 as stated: a block with time control
`"abc+3"` returns no record at all instead of a record classified
`unknown`. -/
theorem C3_counterexample :
    (extractFields cex3).time_control = some ("abc+3".toList) ∧
    parseGame subj cex3 = none := by decide

/-- Witness for the amended C3 at a concrete block (time control `"+90"`,
whose leading component is empty). -/
theorem C3_bad_time_control_discards_record_witness :
    parseGame subj w3 = none :=
  C3_bad_time_control_discards_record subj w3 ("+90".toList) (by decide) (by decide)
    (by decide)

/-- Claim C8, amended.  Matching the subject against white (checked first)
or black is necessary for a record, and neither-matches yields `none` with
no error; but it is not sufficient: a record is produced exactly when, in
addition, the numeric conversions and the time-control classification do
not raise. -/
theorem C8_retention (u text : Str) :
    (∀ g : Game, parseGame u text = some g →
      (extractFields text).white = some u ∨ (extractFields text).black = some u) ∧
    (∀ g : Game, parseGame u text = some g →
      (extractFields text).white = some u → g.my_color = "white".toList) ∧
    ((extractFields text).white ≠ some u → (extractFields text).black ≠ some u →
      parseGame u text = none) ∧
    ((extractFields text).white = some u →
      convElo (extractFields text).white_elo ≠ none →
      convElo (extractFields text).black_elo ≠ none →
      convElo (extractFields text).white_rating_diff ≠ none →
      timeCategorize (extractFields text).time_control ≠ none →
      parseGame u text ≠ none) ∧
    ((extractFields text).white ≠ some u → (extractFields text).black = some u →
      convElo (extractFields text).black_elo ≠ none →
      convElo (extractFields text).white_elo ≠ none →
      convElo (extractFields text).black_rating_diff ≠ none →
      timeCategorize (extractFields text).time_control ≠ none →
      parseGame u text ≠ none) := by
  refine ⟨?_, ?_, ?_, ?_, ?_⟩
  · intro g h
    rcases parseFromFields_inv h with ⟨h1, _⟩ | ⟨_, h1, _⟩
    · exact Or.inl h1
    · exact Or.inr h1
  · intro g h hw
    rcases parseFromFields_inv h with ⟨_, h2, _⟩ | ⟨h1, _⟩
    · exact h2
    · exact absurd hw h1
  · intro hw hb
    unfold parseGame parseFromFields
    rw [if_neg hw, if_neg hb]
  · intro hw h1 h2 h3 h4
    unfold parseGame parseFromFields
    rw [if_pos hw]
    exact finishGame_isSome h1 h2 h3 h4
  · intro hw hb h1 h2 h3 h4
    unfold parseGame parseFromFields
    rw [if_neg hw, if_pos hb]
    exact finishGame_isSome h1 h2 h3 h4

/-- Counterexample to claim C8 as stated: the subject matches the white
field of this block, yet no record is produced (the black rating fails
`int()`), so the match is not sufficient for retention. -/
theorem C8_counterexample :
    (extractFields cex8).white = some subj ∧ parseGame subj cex8 = none := by
  decide

/-- Witness for the amended C8 at concrete blocks: one where the subject
matches neither field (silent discard) and one where the subject matches
white and all conversions succeed (record produced). -/
theorem C8_retention_witness :
    parseGame subj w8 = none ∧ parseGame subj t8 ≠ none :=
  ⟨(C8_retention subj w8).2.2.1 (by decide) (by decide),
    (C8_retention subj t8).2.2.2.1 (by decide) (by decide) (by decide) (by decide)
      (by decide)⟩

/-- Claim C6.  For every retained record with a present, non-`"-"`
time-control string whose leading component converts to an integer base
time `b`: bullet iff `b < 180`, blitz iff `180 ≤ b < 480`, rapid iff
`480 ≤ b < 1500`, classical iff `b ≥ 1500` (so 179 is bullet, 180 and 479
blitz, 480 and 1499 rapid, 1500 classical); a missing or literal `"-"`
time-control string gives `unknown`. -/
theorem C6_time_category_boundaries :
    (∀ u text s : Str, ∀ g : Game, ∀ b : Int,
      parseGame u text = some g →
      (extractFields text).time_control = some s →
      s ≠ "-".toList →
      pyIntL ((splitChar '+' s).headD []) = some b →
      ((g.time_category = "bullet".toList ↔ b < 180) ∧
       (g.time_category = "blitz".toList ↔ 180 ≤ b ∧ b < 480) ∧
       (g.time_category = "rapid".toList ↔ 480 ≤ b ∧ b < 1500) ∧
       (g.time_category = "classical".toList ↔ 1500 ≤ b))) ∧
    (∀ u text : Str, ∀ g : Game,
      parseGame u text = some g →
      ((extractFields text).time_control = none ∨
        (extractFields text).time_control = some ("-".toList)) →
      g.time_category = "unknown".toList) := by
  constructor
  · intro u text s g b hp htc hdash hint
    have hcat := parseGame_timeCat hp
    rw [htc] at hcat
    have hs : s ≠ [] :=
      findTag_ne_nil (show findTag ("TimeControl".toList) text = some s from htc)
    simp only [timeCategorize] at hcat
    rw [if_pos ⟨hs, hdash⟩,
      if_pos (show (splitChar '+' s).length ≥ 1 from
        List.length_pos.mpr (splitChar_ne_nil '+' s))] at hcat
    simp only [hint, Option.some.injEq] at hcat
    rw [← hcat]
    by_cases h1 : b < 180
    · rw [if_pos h1]
      refine ⟨?_, ?_, ?_, ?_⟩ <;> constructor <;> intro h <;>
        first | rfl | omega | exact absurd h (by decide)
    · rw [if_neg h1]
      by_cases h2 : b < 480
      · rw [if_pos h2]
        refine ⟨?_, ?_, ?_, ?_⟩ <;> constructor <;> intro h <;>
          first | rfl | omega | exact absurd h (by decide)
      · rw [if_neg h2]
        by_cases h3 : b < 1500
        · rw [if_pos h3]
          refine ⟨?_, ?_, ?_, ?_⟩ <;> constructor <;> intro h <;>
            first | rfl | omega | exact absurd h (by decide)
        · rw [if_neg h3]
          refine ⟨?_, ?_, ?_, ?_⟩ <;> constructor <;> intro h <;>
            first | rfl | omega | exact absurd h (by decide)
  · intro u text g hp hor
    have hcat := parseGame_timeCat hp
    rcases hor with h | h
    · rw [h] at hcat
      simp only [timeCategorize, Option.some.injEq] at hcat
      exact hcat.symm
    · rw [h] at hcat
      simp only [timeCategorize] at hcat
      have hnd : ¬ (("-".toList : Str) ≠ [] ∧ ("-".toList : Str) ≠ "-".toList) := by
        decide
      rw [if_neg hnd] at hcat
      simp only [Option.some.injEq] at hcat
      exact hcat.symm

/-- Witness for C6: the boundary base time 179 on a concrete block is
classified bullet. -/
theorem C6_time_category_boundaries_witness :
    parseGame subj w6 = some g6 ∧
    (g6.time_category = "bullet".toList ↔ (179 : Int) < 180) :=
  ⟨by decide,
    (C6_time_category_boundaries.1 subj w6 ("179+2".toList) g6 179 (by decide)
      (by decide) (by decide) (by decide)).1⟩

/-- Counterexample to claim C7 as stated: a record with rating difference
exactly 0.  The claim's left-closed reading puts it in `[0,50)`, the bucket
labelled `0 to 50`; `pd.cut` with its default `right=True` actually assigns
the right-closed bucket `(-50, 0]`, labelled `-50 to 0`. -/
theorem C7_counterexample :
    g7.my_elo = some 1500 ∧ g7.opp_elo = some 1500 ∧
    recordRatingBin g7 = some ("-50 to 0".toList) ∧
    recordRatingBin g7 ≠ some ("0 to 50".toList) := by decide

/-- Claim C7, amended.  Every record with both ratings present is assigned,
by subject rating minus opponent rating, to exactly one of the eight fixed
ranges, each OPEN on the left and CLOSED on the right:
`(-inf,-200], (-200,-100], (-100,-50], (-50,0], (0,50], (50,100],
(100,200], (200,+inf)`; records with a null subject or opponent rating are
excluded from the bucketing entirely. -/
theorem C7_rating_bins :
    (∀ d : Int,
      (ratingBin d = "<-200".toList ↔ d ≤ -200) ∧
      (ratingBin d = "-200 to -100".toList ↔ -200 < d ∧ d ≤ -100) ∧
      (ratingBin d = "-100 to -50".toList ↔ -100 < d ∧ d ≤ -50) ∧
      (ratingBin d = "-50 to 0".toList ↔ -50 < d ∧ d ≤ 0) ∧
      (ratingBin d = "0 to 50".toList ↔ 0 < d ∧ d ≤ 50) ∧
      (ratingBin d = "50 to 100".toList ↔ 50 < d ∧ d ≤ 100) ∧
      (ratingBin d = "100 to 200".toList ↔ 100 < d ∧ d ≤ 200) ∧
      (ratingBin d = ">200".toList ↔ 200 < d)) ∧
    (∀ g : Game, g.my_elo = none ∨ g.opp_elo = none → recordRatingBin g = none) ∧
    (∀ (g : Game) (a b : Int), g.my_elo = some a → g.opp_elo = some b →
      recordRatingBin g = some (ratingBin (a - b))) := by
  refine ⟨?_, ?_, ?_⟩
  · intro d
    unfold ratingBin
    split_ifs <;>
      refine ⟨?_, ?_, ?_, ?_, ?_, ?_, ?_, ?_⟩ <;> constructor <;> intro h <;>
        first | rfl | omega | exact absurd h (by decide)
  · intro g hor
    rcases hor with h | h
    · cases ho : g.opp_elo <;> simp [recordRatingBin, h, ho]
    · cases hm : g.my_elo <;> simp [recordRatingBin, h, hm]
  · intro g a b ha hb
    simp [recordRatingBin, ha, hb]

/-- Witness for the amended C7: a record with a null subject rating is
excluded, and the boundary difference `-200` falls in the lowest bucket. -/
theorem C7_rating_bins_witness :
    recordRatingBin gN7 = none ∧ ratingBin (-200) = "<-200".toList :=
  ⟨C7_rating_bins.2.1 gN7 (Or.inl rfl), (C7_rating_bins.1 (-200)).1.mpr (by omega)⟩

theorem whiteOutcome_char (r : Option Str) :
    (whiteOutcome r = "win".toList ↔ r = some ("1-0".toList)) ∧
    (whiteOutcome r = "loss".toList ↔ r = some ("0-1".toList)) ∧
    (whiteOutcome r = "draw".toList ↔
      r ≠ some ("1-0".toList) ∧ r ≠ some ("0-1".toList)) := by
  unfold whiteOutcome
  by_cases h1 : r = some ("1-0".toList)
  · rw [if_pos h1]
    refine ⟨⟨fun _ => h1, fun _ => rfl⟩,
      ⟨fun h => absurd h (by decide), fun h => ?_⟩,
      ⟨fun h => absurd h (by decide), fun h => absurd h1 h.1⟩⟩
    rw [h1] at h
    exact absurd h (by decide)
  · by_cases h2 : r = some ("0-1".toList)
    · rw [if_neg h1, if_pos h2]
      refine ⟨⟨fun h => absurd h (by decide), fun h => ?_⟩,
        ⟨fun _ => h2, fun _ => rfl⟩,
        ⟨fun h => absurd h (by decide), fun h => absurd h2 h.2⟩⟩
      rw [h2] at h
      exact absurd h (by decide)
    · rw [if_neg h1, if_neg h2]
      exact ⟨⟨fun h => absurd h (by decide), fun h => absurd h h1⟩,
        ⟨fun h => absurd h (by decide), fun h => absurd h h2⟩,
        ⟨fun _ => ⟨h1, h2⟩, fun _ => rfl⟩⟩

theorem blackOutcome_char (r : Option Str) :
    (blackOutcome r = "win".toList ↔ r = some ("0-1".toList)) ∧
    (blackOutcome r = "loss".toList ↔ r = some ("1-0".toList)) ∧
    (blackOutcome r = "draw".toList ↔
      r ≠ some ("1-0".toList) ∧ r ≠ some ("0-1".toList)) := by
  unfold blackOutcome
  by_cases h1 : r = some ("0-1".toList)
  · rw [if_pos h1]
    refine ⟨⟨fun _ => h1, fun _ => rfl⟩,
      ⟨fun h => absurd h (by decide), fun h => ?_⟩,
      ⟨fun h => absurd h (by decide), fun h => absurd h1 h.2⟩⟩
    rw [h1] at h
    exact absurd h (by decide)
  · by_cases h2 : r = some ("1-0".toList)
    · rw [if_neg h1, if_pos h2]
      refine ⟨⟨fun h => absurd h (by decide), fun h => ?_⟩,
        ⟨fun _ => h2, fun _ => rfl⟩,
        ⟨fun h => absurd h (by decide), fun h => absurd h2 h.1⟩⟩
      rw [h2] at h
      exact absurd h (by decide)
    · rw [if_neg h1, if_neg h2]
      exact ⟨⟨fun h => absurd h (by decide), fun h => absurd h h1⟩,
        ⟨fun h => absurd h (by decide), fun h => absurd h h2⟩,
        ⟨fun _ => ⟨h2, h1⟩, fun _ => rfl⟩⟩

theorem blackOutcome_swapResult (r : Option Str) :
    blackOutcome (swapResult r) = whiteOutcome r := by
  cases r with
  | none => rfl
  | some s =>
    simp only [swapResult]
    by_cases h1 : s = "1-0".toList
    · rw [if_pos h1, h1]
      decide
    · by_cases h2 : s = "0-1".toList
      · rw [if_neg h1, if_pos h2, h2]
        decide
      · rw [if_neg h1, if_neg h2]
        unfold blackOutcome whiteOutcome
        have d1 : (some s : Option Str) ≠ some ("0-1".toList) :=
          fun hc => h2 (Option.some.inj hc)
        have d2 : (some s : Option Str) ≠ some ("1-0".toList) :=
          fun hc => h1 (Option.some.inj hc)
        rw [if_neg d1, if_neg d2, if_neg d2, if_neg d1]

theorem whiteOutcome_swapResult (r : Option Str) :
    whiteOutcome (swapResult r) = blackOutcome r := by
  cases r with
  | none => rfl
  | some s =>
    simp only [swapResult]
    by_cases h1 : s = "1-0".toList
    · rw [if_pos h1, h1]
      decide
    · by_cases h2 : s = "0-1".toList
      · rw [if_neg h1, if_pos h2, h2]
        decide
      · rw [if_neg h1, if_neg h2]
        unfold blackOutcome whiteOutcome
        have d1 : (some s : Option Str) ≠ some ("0-1".toList) :=
          fun hc => h2 (Option.some.inj hc)
        have d2 : (some s : Option Str) ≠ some ("1-0".toList) :=
          fun hc => h1 (Option.some.inj hc)
        rw [if_neg d2, if_neg d1, if_neg d1, if_neg d2]

/-- Counterexample to claim C4 as stated: in the degenerate block where the
subject is both white and black, swapping the (identical) name labels
together with the result code flips the outcome from win to loss, because
the white-first colour assignment keeps the subject white while the result
code flips. -/
theorem C4_counterexample :
    (extractFields cex4b).white = (extractFields cex4a).black ∧
    (extractFields cex4b).black = (extractFields cex4a).white ∧
    (extractFields cex4b).result = swapResult ((extractFields cex4a).result) ∧
    (parseGame subj cex4a).map Game.outcome = some ("win".toList) ∧
    (parseGame subj cex4b).map Game.outcome = some ("loss".toList) := by decide

/-- Claim C4, amended.  For every retained record the outcome is
characterised exactly as the claim states; and swapping the white/black
labels together with the result code leaves the outcome unchanged provided
the subject does not match both name fields (in that unguarded degenerate
case the counterexample shows the symmetry fails). -/
theorem C4_outcome_rule :
    (∀ u text : Str, ∀ g : Game, parseGame u text = some g →
      ((g.outcome = "win".toList ↔
         (g.my_color = "white".toList ∧ g.result = some ("1-0".toList)) ∨
         (g.my_color = "black".toList ∧ g.result = some ("0-1".toList))) ∧
       (g.outcome = "loss".toList ↔
         (g.my_color = "white".toList ∧ g.result = some ("0-1".toList)) ∨
         (g.my_color = "black".toList ∧ g.result = some ("1-0".toList))) ∧
       (g.outcome = "draw".toList ↔
         g.result ≠ some ("1-0".toList) ∧ g.result ≠ some ("0-1".toList)))) ∧
    (∀ u tA tB : Str, ∀ gA gB : Game,
      parseGame u tA = some gA → parseGame u tB = some gB →
      (extractFields tB).white = (extractFields tA).black →
      (extractFields tB).black = (extractFields tA).white →
      (extractFields tB).result = swapResult ((extractFields tA).result) →
      ¬((extractFields tA).white = some u ∧ (extractFields tA).black = some u) →
      gB.outcome = gA.outcome) := by
  constructor
  · intro u text g hp
    obtain ⟨c1, c2, c3⟩ := whiteOutcome_char ((extractFields text).result)
    obtain ⟨b1, b2, b3⟩ := blackOutcome_char ((extractFields text).result)
    rcases parseFromFields_inv hp with ⟨_, hcol, hout, hres, _⟩ |
      ⟨_, _, hcol, hout, hres, _⟩
    · rw [hcol, hout, hres]
      refine ⟨⟨fun h => Or.inl ⟨rfl, c1.mp h⟩, fun h => ?_⟩,
        ⟨fun h => Or.inl ⟨rfl, c2.mp h⟩, fun h => ?_⟩, c3⟩
      · rcases h with ⟨_, hr⟩ | ⟨hc, _⟩
        · exact c1.mpr hr
        · exact absurd hc (by decide)
      · rcases h with ⟨_, hr⟩ | ⟨hc, _⟩
        · exact c2.mpr hr
        · exact absurd hc (by decide)
    · rw [hcol, hout, hres]
      refine ⟨⟨fun h => Or.inr ⟨rfl, b1.mp h⟩, fun h => ?_⟩,
        ⟨fun h => Or.inr ⟨rfl, b2.mp h⟩, fun h => ?_⟩, b3⟩
      · rcases h with ⟨hc, _⟩ | ⟨_, hr⟩
        · exact absurd hc (by decide)
        · exact b1.mpr hr
      · rcases h with ⟨hc, _⟩ | ⟨_, hr⟩
        · exact absurd hc (by decide)
        · exact b2.mpr hr
  · intro u tA tB gA gB hA hB hw hb hr hnb
    rcases parseFromFields_inv hA with ⟨haw, _, haout, _, _⟩ |
      ⟨haw, hab, _, haout, _, _⟩
    · rcases parseFromFields_inv hB with ⟨hbw, _, hbout, _, _⟩ |
        ⟨hbw, hbb, _, hbout, _, _⟩
      · have hblk : (extractFields tA).black = some u := by rw [← hw]; exact hbw
        exact absurd ⟨haw, hblk⟩ hnb
      · rw [hbout, hr, blackOutcome_swapResult, haout]
    · rcases parseFromFields_inv hB with ⟨hbw, _, hbout, _, _⟩ |
        ⟨hbw, hbb, _, hbout, _, _⟩
      · rw [hbout, hr, whiteOutcome_swapResult, haout]
      · have hwht : (extractFields tA).white = some u := by rw [← hb]; exact hbb
        exact absurd hwht haw

/-- Witness for the amended C4 at a concrete swapped pair of blocks: the
subject wins as white in one and as black in the other, and both records get
outcome `win`. -/
theorem C4_outcome_rule_witness :
    parseGame subj wA4 = some gA4 ∧ parseGame subj wB4 = some gB4 ∧
    gB4.outcome = gA4.outcome :=
  ⟨by decide, by decide,
    C4_outcome_rule.2 subj wA4 wB4 gA4 gB4 (by decide) (by decide) (by decide)
      (by decide) (by decide) (by decide)⟩

theorem dropLit_self (p s : Str) : dropLit p (p ++ s) = some s := by
  induction p with
  | nil => rfl
  | cons c p ih => simp [dropLit, ih]

theorem takeWhile_all_append {p : Char → Bool} (v : Str) (d : Char) (s : Str)
    (hv : ∀ c ∈ v, p c = true) (hd : p d = false) :
    (v ++ d :: s).takeWhile p = v ∧ (v ++ d :: s).dropWhile p = d :: s := by
  induction v with
  | nil => simp [List.takeWhile_cons, List.dropWhile_cons, hd]
  | cons c v ih =>
    have hc := hv c (List.mem_cons_self _ _)
    have ih2 := ih (fun x hx => hv x (List.mem_cons_of_mem _ hx))
    simp [List.takeWhile_cons, List.dropWhile_cons, hc, ih2.1, ih2.2]

theorem tryTag_tagLine_eq (t v : Str) (s : Str) (hv : validTagValue v)
    (hne : v ≠ []) : tryTag t (tagLine t v ++ s) = some v := by
  have heq : tagLine t v ++ s = tagPre t ++ (v ++ '"' :: ']' :: s) := by
    simp [tagLine, tagPre]
  rw [heq]
  unfold tryTag
  simp only [dropLit_self]
  have hall : ∀ c ∈ v, notQuote c = true := by
    intro c hc
    simp only [notQuote, bne_iff_ne]
    exact (hv c hc).1
  have hq : notQuote '"' = false := by decide
  obtain ⟨ht, hd⟩ := takeWhile_all_append v '"' (']' :: s) hall hq
  rw [ht, hd]
  cases v with
  | nil => exact absurd rfl hne
  | cons c v => rfl

theorem dropLit_name_mismatch (t : Str) (r : Str) :
    ∀ n s : Str, (∀ c ∈ t, c ≠ ' ') → (∀ c ∈ n, c ≠ ' ') → n ≠ t →
      dropLit (t ++ ' ' :: r) (n ++ ' ' :: s) = none := by
  induction t with
  | nil =>
    intro n s _ hn hne
    cases n with
    | nil => exact absurd rfl hne
    | cons c n =>
      have hc : c ≠ ' ' := hn c (List.mem_cons_self _ _)
      simp only [List.nil_append, List.cons_append, dropLit]
      rw [if_neg (fun h => hc h.symm)]
  | cons c t ih =>
    intro n s ht hn hne
    cases n with
    | nil =>
      have hc : c ≠ ' ' := ht c (List.mem_cons_self _ _)
      simp only [List.nil_append, List.cons_append, dropLit]
      rw [if_neg hc]
    | cons d n =>
      simp only [List.cons_append, dropLit]
      by_cases hcd : c = d
      · rw [if_pos hcd]
        subst hcd
        exact ih n s (fun x hx => ht x (List.mem_cons_of_mem _ hx))
          (fun x hx => hn x (List.mem_cons_of_mem _ hx))
          (fun h => hne (by rw [h]))
      · rw [if_neg hcd]

theorem tryTag_tagLine_ne (t n v : Str) (s : Str) (htn : validTagName t)
    (hnn : validTagName n) (hne : n ≠ t) :
    tryTag t (tagLine n v ++ s) = none := by
  have heq : tagLine n v ++ s =
      '[' :: (n ++ ' ' :: ('"' :: v ++ '"' :: ']' :: s)) := by
    simp [tagLine]
  rw [heq]
  unfold tryTag
  have hdrop : dropLit (tagPre t)
      ('[' :: (n ++ ' ' :: ('"' :: v ++ '"' :: ']' :: s))) = none := by
    unfold tagPre
    simp only [dropLit, if_true]
    exact dropLit_name_mismatch t ('"' :: []) n ('"' :: v ++ '"' :: ']' :: s)
      (fun c hc => (htn.2 c hc).2.2) (fun c hc => (hnn.2 c hc).2.2) hne
  simp only [hdrop]

theorem tryTag_tagLine_empty (t : Str) (s : Str) :
    tryTag t (tagLine t [] ++ s) = none := by
  have heq : tagLine t [] ++ s = tagPre t ++ ('"' :: ']' :: s) := by
    simp [tagLine, tagPre]
  rw [heq]
  unfold tryTag
  simp only [dropLit_self]
  have hq : notQuote '"' = false := by decide
  simp [List.takeWhile_cons, hq]

theorem findTag_cons_nobr {t : Str} {c : Char} {cs : Str} (hc : c ≠ '[') :
    findTag t (c :: cs) = findTag t cs := by
  have h1 : tryTag t (c :: cs) = none := by
    unfold tryTag
    have hdrop : dropLit (tagPre t) (c :: cs) = none := by
      unfold tagPre
      simp only [dropLit]
      rw [if_neg (fun h => hc h.symm)]
    simp only [hdrop]
  simp only [findTag, h1]

theorem findTag_append_nobr (t : Str) (junk s : Str)
    (h : ∀ c ∈ junk, c ≠ '[') : findTag t (junk ++ s) = findTag t s := by
  induction junk with
  | nil => rfl
  | cons c cs ih =>
    have hc : c ≠ '[' := h c (List.mem_cons_self _ _)
    rw [List.cons_append, findTag_cons_nobr hc]
    exact ih (fun x hx => h x (List.mem_cons_of_mem _ hx))

theorem findTag_tagLine_skip (t n v : Str) (R : Str)
    (hnn : validTagName n) (hvv : validTagValue v)
    (hfail : tryTag t (tagLine n v ++ ('\n' :: R)) = none) :
    findTag t (tagLine n v ++ ('\n' :: R)) = findTag t R := by
  have heq : tagLine n v ++ ('\n' :: R) =
      '[' :: ((n ++ [' ', '"'] ++ v ++ ['"', ']', '\n']) ++ R) := by
    simp [tagLine]
  rw [heq] at hfail ⊢
  simp only [findTag, hfail]
  refine findTag_append_nobr t _ R ?_
  intro c hc
  rcases List.mem_append.mp hc with h123 | h4
  · rcases List.mem_append.mp h123 with h12 | h3
    · rcases List.mem_append.mp h12 with h1 | h2
      · exact (hnn.2 c h1).2.1
      · have : c = ' ' ∨ c = '"' := by simpa using h2
        rcases this with rfl | rfl <;> decide
    · exact (hvv c h3).2
  · have : c = '"' ∨ c = ']' ∨ c = '\n' := by simpa using h4
    rcases this with rfl | rfl | rfl <;> decide

theorem findTag_renderTags (t : Str) (ht : validTagName t)
    (ps : List (Str × Str)) (hps : ValidPairs ps) :
    findTag t (renderTags ps) = lookupNE t ps := by
  induction ps with
  | nil => rfl
  | cons q rest ih =>
    obtain ⟨n, v⟩ := q
    have hq := hps (n, v) (List.mem_cons_self _ _)
    have hrest := ih (fun x hx => hps x (List.mem_cons_of_mem _ hx))
    have hline : renderTags ((n, v) :: rest) =
        tagLine n v ++ ('\n' :: renderTags rest) := by
      simp [renderTags]
    by_cases hnt : n = t
    · subst hnt
      by_cases hv : v = []
      · subst hv
        have hfail := tryTag_tagLine_empty n ('\n' :: renderTags rest)
        rw [hline, findTag_tagLine_skip n n [] _ hq.1
          (fun c hc => absurd hc (List.not_mem_nil c)) hfail, hrest]
        simp [lookupNE]
      · have hsucc := tryTag_tagLine_eq n v ('\n' :: renderTags rest) hq.2 hv
        have hx : tagLine n v ++ ('\n' :: renderTags rest) =
            '[' :: (n ++ ' ' :: '"' :: v ++ '"' :: ']' :: '\n' :: renderTags rest) := by
          simp [tagLine]
        rw [hline, hx]
        rw [hx] at hsucc
        simp only [findTag, hsucc]
        simp [lookupNE, hv]
    · have hfail := tryTag_tagLine_ne t n v ('\n' :: renderTags rest) ht hq.1 hnt
      rw [hline, findTag_tagLine_skip t n v _ hq.1 hq.2 hfail, hrest]
      simp [lookupNE, hnt]

theorem lookupNE_skip_empty (t n : Str) (pre post : List (Str × Str)) :
    lookupNE t (pre ++ (n, []) :: post) = lookupNE t (pre ++ post) := by
  induction pre with
  | nil => simp [lookupNE]
  | cons q pre ih =>
    obtain ⟨m, w⟩ := q
    simp [lookupNE, ih]

/-- Claim C10.  In a block of well-formed tag lines, a tag line whose quoted
value is empty is treated exactly as if it were absent — each tag pattern
requires at least one character between the quotes, so the empty-valued line
can never match, and the whole produced record is the same with or without
it. -/
theorem C10_empty_tag_as_absent (u : Str) (pre post : List (Str × Str))
    (n : Str) (hn : validTagName n) (hpre : ValidPairs pre)
    (hpost : ValidPairs post) :
    parseGame u (renderTags (pre ++ (n, []) :: post)) =
      parseGame u (renderTags (pre ++ post)) := by
  have hall : ValidPairs (pre ++ (n, []) :: post) := by
    intro q hq
    rcases List.mem_append.mp hq with h | h
    · exact hpre q h
    · rcases List.mem_cons.mp h with rfl | h
      · exact ⟨hn, fun c hc => absurd hc (List.not_mem_nil c)⟩
      · exact hpost q h
  have hall2 : ValidPairs (pre ++ post) := by
    intro q hq
    rcases List.mem_append.mp hq with h | h
    · exact hpre q h
    · exact hpost q h
  have key : ∀ tg : Str, validTagName tg →
      findTag tg (renderTags (pre ++ (n, []) :: post)) =
        findTag tg (renderTags (pre ++ post)) := by
    intro tg htg
    rw [findTag_renderTags tg htg _ hall, findTag_renderTags tg htg _ hall2,
      lookupNE_skip_empty]
  have hext : extractFields (renderTags (pre ++ (n, []) :: post)) =
      extractFields (renderTags (pre ++ post)) := by
    unfold extractFields
    rw [key ("Event".toList) (by decide), key ("UTCDate".toList) (by decide),
      key ("White".toList) (by decide), key ("Black".toList) (by decide),
      key ("Result".toList) (by decide), key ("WhiteElo".toList) (by decide),
      key ("BlackElo".toList) (by decide),
      key ("WhiteRatingDiff".toList) (by decide),
      key ("BlackRatingDiff".toList) (by decide),
      key ("TimeControl".toList) (by decide), key ("ECO".toList) (by decide),
      key ("Opening".toList) (by decide), key ("Termination".toList) (by decide)]
  unfold parseGame
  rw [hext]

/-- Witness for C10: a concrete block with an empty-valued `WhiteElo` tag
parses to the same record as the block without that line. -/
theorem C10_empty_tag_as_absent_witness :
    validTagName ("WhiteElo".toList) ∧
    parseGame subj (renderTags (("WhiteElo".toList, ([] : Str)) :: post10)) =
      parseGame subj (renderTags post10) :=
  ⟨by decide,
    C10_empty_tag_as_absent subj [] post10 ("WhiteElo".toList) (by decide)
      (by decide) (by decide)⟩
